import Mathlib

/-!
# Verification of the dagger workflow engine core

Shallow embedding of the `dagger` Python package (abstract Task / Datum /
WorkflowManager classes and the core WorkflowManager scheduling helpers),
together with theorems settling the specification claims about it.

Conventions used throughout:
* Python `None` becomes `Option.none`; a raised exception becomes a
  `PyError` value carried in the operation's result.
* The abstract `_..._logic` hook methods of `AbstractDatum` are pure
  functions of the datum's pointer, collected in a `DatumHooks` record;
  a concrete variant (e.g. MemoryDatum: both hooks constantly true)
  is an instantiation of this record.
* A mutating Python method becomes a function from the old record to a
  result record holding the updated object, the raised exception (if any)
  and flags recording which external side effects (cleanup hooks) ran.
-/

namespace Dagger

/-- The four states of `TaskState` in `abstract/task.py`. -/
inductive TaskState
  | WAITING
  | RUNNING
  | COMPLETE
  | FAILED
deriving DecidableEq, Repr

/-- The three states of `DatumState` in `abstract/datum.py`. -/
inductive DatumState
  | EMPTY
  | POPULATED
  | AVAILABLE
deriving DecidableEq, Repr

/-- `_TASK_TRANSITIONS` from `abstract/task.py`: the targets legal from
each state (self-transitions are handled separately by the setter). -/
def taskTransitions : TaskState → List TaskState
  | .WAITING  => [.RUNNING, .COMPLETE]
  | .RUNNING  => [.COMPLETE, .FAILED, .WAITING]
  | .COMPLETE => [.WAITING]
  | .FAILED   => [.WAITING]

/-- `_DATUM_TRANSITIONS` from `abstract/datum.py`. -/
def datumTransitions : DatumState → List DatumState
  | .EMPTY     => [.POPULATED]
  | .POPULATED => [.EMPTY, .AVAILABLE]
  | .AVAILABLE => [.EMPTY, .POPULATED]

/-- The exceptions the embedded code can raise.  `userError` stands for an
arbitrary exception escaping a task body (`_run_logic`). -/
inductive PyError
  | invalidTransition   -- ValueError "Invalid ... transition"
  | invalidFormat       -- ValueError "Datum's pointer is not well-formed"
  | typeError           -- TypeError (e.g. iterating over None)
  | notReady            -- RuntimeError "Task ... is not ready to run"
  | missingOutput       -- RuntimeError "Task ... ran, but is missing outputs"
  | keyboardInterrupt   -- KeyboardInterrupt
  | userError (code : Nat)
deriving DecidableEq, Repr

/-- The `state` property setter of `AbstractTask`: a self-assignment is
always accepted; otherwise the new state must be in
`_TASK_TRANSITIONS[current]`, else `ValueError` is raised and the stored
state is unchanged. -/
def setTaskState (cur new : TaskState) : Except PyError TaskState :=
  if new = cur then .ok new
  else if new ∈ taskTransitions cur then .ok new
  else .error .invalidTransition

/-- The `state` property setter of `AbstractDatum`, same shape as the Task
one but over `_DATUM_TRANSITIONS`. -/
def setDatumState (cur new : DatumState) : Except PyError DatumState :=
  if new = cur then .ok new
  else if new ∈ datumTransitions cur then .ok new
  else .error .invalidTransition

/-- The stored state after an assignment attempt: the new state when the
assignment was accepted, the unchanged current state when it raised. -/
def storedTaskState (cur new : TaskState) : TaskState :=
  match setTaskState cur new with
  | .ok s => s
  | .error _ => cur

/-- The stored state after a Datum state assignment attempt. -/
def storedDatumState (cur new : DatumState) : DatumState :=
  match setDatumState cur new with
  | .ok s => s
  | .error _ => cur

/-- The seven Task edges the claim enumerates. -/
def taskEdgeList : List (TaskState × TaskState) :=
  [(.WAITING, .RUNNING), (.WAITING, .COMPLETE),
   (.RUNNING, .COMPLETE), (.RUNNING, .FAILED), (.RUNNING, .WAITING),
   (.COMPLETE, .WAITING), (.FAILED, .WAITING)]

/-- The five Datum edges the claim enumerates. -/
def datumEdgeList : List (DatumState × DatumState) :=
  [(.EMPTY, .POPULATED), (.POPULATED, .EMPTY), (.POPULATED, .AVAILABLE),
   (.AVAILABLE, .POPULATED), (.AVAILABLE, .EMPTY)]

/-- C1: every assignment to `state` on a Task or Datum either is a
self-transition (always accepted), or follows an edge of the respective
transition table (exactly the edges enumerated in the claim); any other
assignment raises InvalidTransition and leaves the stored state
unchanged. -/
theorem state_assignment_respects_transition_tables :
    (∀ c n : TaskState,
      (setTaskState c n = .ok n ↔ n = c ∨ (c, n) ∈ taskEdgeList) ∧
      (setTaskState c n = .error .invalidTransition ↔
        ¬(n = c ∨ (c, n) ∈ taskEdgeList)) ∧
      (setTaskState c n = .error .invalidTransition → storedTaskState c n = c)) ∧
    (∀ c n : DatumState,
      (setDatumState c n = .ok n ↔ n = c ∨ (c, n) ∈ datumEdgeList) ∧
      (setDatumState c n = .error .invalidTransition ↔
        ¬(n = c ∨ (c, n) ∈ datumEdgeList)) ∧
      (setDatumState c n = .error .invalidTransition → storedDatumState c n = c)) := by
  constructor
  · intro c n
    cases c <;> cases n <;> simp [setTaskState, storedTaskState, taskTransitions, taskEdgeList]
  · intro c n
    cases c <;> cases n <;> simp [setDatumState, storedDatumState, datumTransitions, datumEdgeList]

/-! ## The Datum model (`abstract/datum.py`) -/

/-- The mutable attributes of an `AbstractDatum`: `state`, `pointer` and
`quickhash` (the `parents` list plays no role in the lifecycle methods). -/
structure Datum (Ptr : Type) where
  state : DatumState
  pointer : Option Ptr
  quickhash : Option Int
deriving DecidableEq, Repr

/-- The abstract hook methods a Datum variant must provide
(`_validate_format_logic`, `_verify_available_logic`, `_quickhash`),
modelled as pure functions of the datum's pointer.  `_clear_logic` acts
only on the external world, so it carries no data here; operations record
whether it ran in a `clearLogicRan` flag. -/
structure DatumHooks (Ptr : Type) where
  validate : Option Ptr → Bool
  avail : Option Ptr → Bool
  qh : Option Ptr → Int

/-- Result of a mutating Datum operation: the updated datum, the raised
exception if any, and whether the variant's `_clear_logic` cleanup hook
ran during the operation. -/
structure DatumOpResult (Ptr : Type) where
  datum : Datum Ptr
  raised : Option PyError
  clearLogicRan : Bool
deriving DecidableEq, Repr

namespace Datum

variable {Ptr : Type}

/-- Assign `d.state` through the property setter; on InvalidTransition the
datum is returned unchanged together with the error. -/
def trySetState (d : Datum Ptr) (s : DatumState) : Except PyError (Datum Ptr) :=
  match setDatumState d.state s with
  | .ok s' => .ok { d with state := s' }
  | .error e => .error e

/-- `AbstractDatum.populate`: store the pointer, transition to POPULATED,
then `_validate_format` — on rejection the pointer is nulled, the state
set to EMPTY, and ValueError (InvalidFormat) raised. -/
def populate (hk : DatumHooks Ptr) (d : Datum Ptr) (p : Ptr) : DatumOpResult Ptr :=
  let d := { d with pointer := some p }
  match d.trySetState .POPULATED with
  | .error e => ⟨d, some e, false⟩
  | .ok d =>
    -- _validate_format()
    if hk.validate d.pointer then ⟨d, none, false⟩
    else
      let d := { d with pointer := none }
      match d.trySetState .EMPTY with
      | .error e => ⟨d, some e, false⟩
      | .ok d => ⟨d, some .invalidFormat, false⟩

/-- Result of `verify_available`: updated datum plus the returned Bool. -/
structure VerifyResult (Ptr : Type) where
  datum : Datum Ptr
  raised : Option PyError
  result : Bool
deriving DecidableEq, Repr

/-- `AbstractDatum.verify_available(update)`: if the state is not EMPTY and
the variant's existence predicate holds, then (when `update`) transition
to AVAILABLE and recompute the quickhash, and return True; otherwise
return False. -/
def verifyAvailable (hk : DatumHooks Ptr) (d : Datum Ptr) (update : Bool) :
    VerifyResult Ptr :=
  if d.state ≠ DatumState.EMPTY ∧ hk.avail d.pointer then
    if update then
      match d.trySetState .AVAILABLE with
      | .error e => ⟨d, some e, true⟩
      | .ok d => ⟨{ d with quickhash := some (hk.qh d.pointer) }, none, true⟩
    else ⟨d, none, true⟩
  else ⟨d, none, false⟩

/-- `AbstractDatum.clear`: no-op when EMPTY; otherwise run `_clear_logic`,
transition to POPULATED and null the quickhash. -/
def clear (d : Datum Ptr) : DatumOpResult Ptr :=
  if d.state ≠ DatumState.EMPTY then
    -- _clear_logic() runs here (external side effect)
    match d.trySetState .POPULATED with
    | .error e => ⟨d, some e, true⟩
    | .ok d => ⟨{ d with quickhash := none }, none, true⟩
  else ⟨d, none, false⟩

/-- `AbstractDatum._verify_quickhash(update)`: recompute the fingerprint
and compare with the stored one; on mismatch store the new one when
`update`.  Returns the updated datum and the comparison result. -/
def verifyQuickhash (hk : DatumHooks Ptr) (d : Datum Ptr) (update : Bool) :
    Datum Ptr × Bool :=
  let newHash := hk.qh d.pointer
  if some newHash = d.quickhash then (d, true)
  else if update then ({ d with quickhash := some newHash }, false)
  else (d, false)

/-- `AbstractDatum.sync`: reconcile the state with the underlying data.
If the pointer fails validation, null it and go EMPTY; else if the
existence check fails, go POPULATED; else if the recomputed fingerprint
matches the stored one (`_verify_quickhash(update=True)`), go AVAILABLE;
else `clear()`. -/
def sync (hk : DatumHooks Ptr) (d : Datum Ptr) : DatumOpResult Ptr :=
  if ¬ hk.validate d.pointer then
    let d := { d with pointer := none }
    match d.trySetState .EMPTY with
    | .error e => ⟨d, some e, false⟩
    | .ok d => ⟨d, none, false⟩
  else
    if hk.avail d.pointer then
      let vq := d.verifyQuickhash hk true
      if vq.2 then
        match vq.1.trySetState .AVAILABLE with
        | .error e => ⟨vq.1, some e, false⟩
        | .ok d => ⟨d, none, false⟩
      else vq.1.clear
    else
      match d.trySetState .POPULATED with
      | .error e => ⟨d, some e, false⟩
      | .ok d => ⟨d, none, false⟩

end Datum

/-- A MemoryDatum-like variant: format validation and the existence check
are constantly true (`MemoryDatum._validate_format_logic` and
`MemoryDatum._verify_available_logic` both `return True`), and the
fingerprint of any pointer is the constant `h`. -/
def memoryLikeHooks (h : Int) : DatumHooks Nat :=
  ⟨fun _ => true, fun _ => true, fun _ => h⟩

/-- A freshly constructed Datum: state EMPTY, no pointer, no quickhash
(`AbstractDatum.__init__` without a `pointer` kwarg). -/
def freshDatum : Datum Nat := ⟨.EMPTY, none, none⟩

/-- C3 counterexample: on a freshly constructed MemoryDatum-like Datum
(EMPTY, validation and existence both pass, recomputed fingerprint `5`
differs from the stored `None`), the claim predicts the effect of
`clear()` — cleanup hook run, state POPULATED, quickhash nulled — but
`sync()` leaves the datum EMPTY, runs no cleanup hook, and stores the
freshly computed quickhash, because `clear()` is a no-op on an EMPTY
datum. -/
theorem datum_sync_fresh_counterexample :
    (memoryLikeHooks 5).validate freshDatum.pointer = true ∧
    (memoryLikeHooks 5).avail freshDatum.pointer = true ∧
    some ((memoryLikeHooks 5).qh freshDatum.pointer) ≠ freshDatum.quickhash ∧
    (Datum.sync (memoryLikeHooks 5) freshDatum).clearLogicRan = false ∧
    (Datum.sync (memoryLikeHooks 5) freshDatum).datum.state ≠ DatumState.POPULATED ∧
    (Datum.sync (memoryLikeHooks 5) freshDatum).datum.state = DatumState.EMPTY := by
  refine ⟨rfl, rfl, by decide, rfl, by decide, rfl⟩

/-- C3 (amended): `sync()` ends with: state EMPTY and pointer null if
format validation fails; otherwise state POPULATED if the existence check
fails; otherwise, when the recomputed fingerprint equals the stored one:
state AVAILABLE with the stored quickhash kept if the datum was not
EMPTY, while an EMPTY datum (possible only with a stale non-null stored
hash) raises InvalidTransition from the EMPTY→AVAILABLE assignment and is
left unchanged; otherwise the effect of `clear()`: on a non-EMPTY datum
the persistent-cleanup hook runs, the state becomes POPULATED and the
quickhash is nulled, while an EMPTY datum stays EMPTY with no cleanup
hook run (`clear()` is a no-op on EMPTY). -/
theorem datum_sync_characterization {Ptr : Type} (hk : DatumHooks Ptr) (d : Datum Ptr) :
    (hk.validate d.pointer = false →
      (Datum.sync hk d).raised = none ∧
      (Datum.sync hk d).datum.state = DatumState.EMPTY ∧
      (Datum.sync hk d).datum.pointer = none) ∧
    (hk.validate d.pointer = true → hk.avail d.pointer = false →
      (Datum.sync hk d).raised = none ∧
      (Datum.sync hk d).datum.state = DatumState.POPULATED) ∧
    (hk.validate d.pointer = true → hk.avail d.pointer = true →
      some (hk.qh d.pointer) = d.quickhash →
      (d.state ≠ DatumState.EMPTY →
        (Datum.sync hk d).raised = none ∧
        (Datum.sync hk d).datum.state = DatumState.AVAILABLE ∧
        (Datum.sync hk d).datum.quickhash = d.quickhash) ∧
      (d.state = DatumState.EMPTY →
        (Datum.sync hk d).raised = some PyError.invalidTransition ∧
        (Datum.sync hk d).datum = d ∧
        (Datum.sync hk d).clearLogicRan = false)) ∧
    (hk.validate d.pointer = true → hk.avail d.pointer = true →
      some (hk.qh d.pointer) ≠ d.quickhash →
      (d.state ≠ DatumState.EMPTY →
        (Datum.sync hk d).raised = none ∧
        (Datum.sync hk d).clearLogicRan = true ∧
        (Datum.sync hk d).datum.state = DatumState.POPULATED ∧
        (Datum.sync hk d).datum.quickhash = none) ∧
      (d.state = DatumState.EMPTY →
        (Datum.sync hk d).raised = none ∧
        (Datum.sync hk d).clearLogicRan = false ∧
        (Datum.sync hk d).datum.state = DatumState.EMPTY)) := by
  obtain ⟨s, p, q⟩ := d
  by_cases hv : hk.validate p = true
  · by_cases ha : hk.avail p = true
    · by_cases hm : some (hk.qh p) = q
      · cases s <;>
          simp_all [Datum.sync, Datum.verifyQuickhash, Datum.trySetState,
            setDatumState, datumTransitions, Datum.clear]
      · cases s <;>
          simp_all [Datum.sync, Datum.verifyQuickhash, Datum.trySetState,
            setDatumState, datumTransitions, Datum.clear]
    · cases s <;>
        simp_all [Datum.sync, Datum.verifyQuickhash, Datum.trySetState,
          setDatumState, datumTransitions, Datum.clear]
  · cases s <;>
      simp_all [Datum.sync, Datum.verifyQuickhash, Datum.trySetState,
        setDatumState, datumTransitions, Datum.clear]

/-- Witness for `datum_sync_characterization` at a concrete input: a
POPULATED MemoryDatum-like Datum with a stale (null) stored hash takes
the `clear()` branch, raising nothing and running the cleanup hook. -/
theorem datum_sync_characterization_witness :
    (Datum.sync (memoryLikeHooks 5) (⟨.POPULATED, some 3, none⟩ : Datum Nat)).raised = none ∧
    (Datum.sync (memoryLikeHooks 5) (⟨.POPULATED, some 3, none⟩ : Datum Nat)).clearLogicRan = true ∧
    (Datum.sync (memoryLikeHooks 5) (⟨.POPULATED, some 3, none⟩ : Datum Nat)).datum.state = DatumState.POPULATED := by
  have h := (datum_sync_characterization (memoryLikeHooks 5)
    (⟨.POPULATED, some 3, none⟩ : Datum Nat)).2.2.2 rfl rfl (by decide)
  exact ⟨(h.1 (by decide)).1, (h.1 (by decide)).2.1, (h.1 (by decide)).2.2.1⟩

/-- C8 (code-bug exhibit): calling `sync()` on a freshly constructed
MemoryDatum-like Datum leaves it EMPTY but with a non-null quickhash
(`_verify_quickhash(update=True)` stores the freshly computed hash and
the subsequent `clear()` is a no-op on an EMPTY datum), violating the
invariant `state = EMPTY ⇒ quickhash = null` stated by both the spec and
the module docstring of `abstract/datum.py`. -/
theorem datum_sync_empty_quickhash_bug :
    (Datum.sync (memoryLikeHooks 0) freshDatum).datum.state = DatumState.EMPTY ∧
    (Datum.sync (memoryLikeHooks 0) freshDatum).datum.quickhash = some 0 ∧
    (Datum.sync (memoryLikeHooks 0) freshDatum).datum.quickhash ≠ none := by
  refine ⟨rfl, rfl, by decide⟩

/-! ## The Task model (`abstract/task.py`) -/

/-- Everything `AbstractTask.sync` reads and writes about one task.
Input and output Datums are paired with their variant hooks.  The
recursive call syncs each dependency with this same procedure before the
task's own state is set; `depStates` are the dependencies' states at that
point.  `storedHash` is the task's stored `quickhash`; `newHash` is what
`_quickhash()` returns when recomputed. -/
structure TaskSyncEnv (Ptr : Type) where
  prev : TaskState
  inputs : List (DatumHooks Ptr × Datum Ptr)
  outputs : List (DatumHooks Ptr × Datum Ptr)
  depStates : List TaskState
  storedHash : Int
  newHash : Int

namespace Task

variable {Ptr : Type}

/-- The loops `for datum in ...: datum.sync()` of `AbstractTask.sync`:
sync each Datum of a dict in order, returning the updated Datums — or the
first exception a `datum.sync()` call raises.  `AbstractTask.sync` does
not catch it: the exception propagates out of `sync()`, the remaining
Datums are not synced, and the task's state is never set. -/
def syncDatums : List (DatumHooks Ptr × Datum Ptr) →
    Except PyError (List (Datum Ptr))
  | [] => .ok []
  | x :: rest =>
    match (Datum.sync x.1 x.2).raised with
    | some er => .error er
    | none => (syncDatums rest).map fun ds => (Datum.sync x.1 x.2).datum :: ds

/-- `all(d.state == DatumState.AVAILABLE for d in ...)` over the synced
Datums of a dict. -/
def availAll (ds : List (Datum Ptr)) : Bool :=
  ds.all fun d => d.state == DatumState.AVAILABLE

/-- `all(d.state == TaskState.COMPLETE for d in self.dependencies)`. -/
def allComplete (l : List TaskState) : Bool :=
  l.all fun s => s == TaskState.COMPLETE

/-- The accumulated `complete` flag of `AbstractTask.sync`
(`complete &= inputs_available; complete &= outputs_available;
complete &= deps_complete`), as computed when every datum sync returned
normally. -/
def syncComplete (e : TaskSyncEnv Ptr) : Bool :=
  availAll (e.inputs.map fun x => (Datum.sync x.1 x.2).datum)
    && availAll (e.outputs.map fun x => (Datum.sync x.1 x.2).datum)
    && allComplete e.depStates

/-- The classification tail of `AbstractTask.sync`, reached only when the
input and output datum syncs all returned: keep FAILED if already FAILED,
else COMPLETE when the accumulated `complete` flag holds and
`_verify_quickhash(update=True)` matches (on mismatch it stores the new
hash), else WAITING.  Returns the final state and stored quickhash, or
the error a task state assignment raised. -/
def classify (e : TaskSyncEnv Ptr) (inputsS outputsS : List (Datum Ptr)) :
    Except PyError (TaskState × Int) :=
  if e.prev = TaskState.FAILED then
    (setTaskState e.prev .FAILED).map fun s => (s, e.storedHash)
  else if availAll inputsS && availAll outputsS && allComplete e.depStates then
    -- `complete and self._verify_quickhash(update=True)`
    if e.newHash = e.storedHash then
      (setTaskState e.prev .COMPLETE).map fun s => (s, e.storedHash)
    else
      (setTaskState e.prev .WAITING).map fun s => (s, e.newHash)
  else
    (setTaskState e.prev .WAITING).map fun s => (s, e.storedHash)

/-- `AbstractTask.sync`: sync every input Datum, sync every output Datum
(each loop propagating the first exception raised, in which case the
task's state is never assigned), sync dependencies (their post-sync
states are `depStates`), then classify. -/
def syncStep (e : TaskSyncEnv Ptr) : Except PyError (TaskState × Int) :=
  match syncDatums e.inputs with
  | .error er => .error er
  | .ok inputsS =>
    match syncDatums e.outputs with
    | .error er => .error er
    | .ok outputsS => classify e inputsS outputsS

end Task

/-- When no datum sync of the dict raises, the loop returns the pointwise
synced Datums. -/
theorem syncDatums_ok {Ptr : Type} {l : List (DatumHooks Ptr × Datum Ptr)}
    (h : ∀ x ∈ l, (Datum.sync x.1 x.2).raised = none) :
    Task.syncDatums l = .ok (l.map fun x => (Datum.sync x.1 x.2).datum) := by
  induction l with
  | nil => rfl
  | cons x rest ih =>
    have hx : (Datum.sync x.1 x.2).raised = none :=
      h x (List.mem_cons_self x rest)
    simp only [Task.syncDatums, hx,
      ih fun y hy => h y (List.mem_cons_of_mem x hy)]
    rfl

/-- `availAll` over the synced dict is the pointwise statement that every
Datum of the dict is AVAILABLE after its sync. -/
theorem availAll_map_iff {Ptr : Type} (l : List (DatumHooks Ptr × Datum Ptr)) :
    Task.availAll (l.map fun x => (Datum.sync x.1 x.2).datum) = true ↔
      ∀ x ∈ l, (Datum.sync x.1 x.2).datum.state = DatumState.AVAILABLE := by
  rw [Task.availAll]
  constructor
  · intro h x hx
    have := List.all_eq_true.mp h _ (List.mem_map_of_mem _ hx)
    simpa using this
  · intro h
    apply List.all_eq_true.mpr
    intro d hd
    obtain ⟨x, hx, rfl⟩ := List.mem_map.mp hd
    simpa using h x hx

/-- `allComplete` is the pointwise statement that every listed state is
COMPLETE. -/
theorem allComplete_iff (l : List TaskState) :
    Task.allComplete l = true ↔ ∀ s ∈ l, s = TaskState.COMPLETE := by
  simp only [Task.allComplete, List.all_eq_true, beq_iff_eq]

/-- The `complete` flag holds iff the claim's three availability and
completeness conditions hold. -/
theorem syncComplete_iff {Ptr : Type} (e : TaskSyncEnv Ptr) :
    Task.syncComplete e = true ↔
      (∀ st ∈ e.depStates, st = TaskState.COMPLETE) ∧
      (∀ x ∈ e.inputs, (Datum.sync x.1 x.2).datum.state = DatumState.AVAILABLE) ∧
      (∀ x ∈ e.outputs, (Datum.sync x.1 x.2).datum.state = DatumState.AVAILABLE) := by
  rw [Task.syncComplete]
  simp only [Bool.and_eq_true, availAll_map_iff, allComplete_iff]
  tauto

/-- Assigning WAITING is legal from every task state. -/
theorem setTaskState_WAITING (p : TaskState) :
    setTaskState p .WAITING = .ok .WAITING := by
  cases p <;> rfl

/-- Assigning COMPLETE is legal from every task state except FAILED. -/
theorem setTaskState_COMPLETE {p : TaskState} (h : p ≠ TaskState.FAILED) :
    setTaskState p .COMPLETE = .ok .COMPLETE := by
  cases p <;> simp_all [setTaskState, taskTransitions]

/-- C2: when every input and output datum sync returns normally — i.e.
whenever `sync()` itself returns instead of propagating a datum
exception — the task ends COMPLETE iff its previous state was not FAILED,
all dependencies are COMPLETE (after their own recursive sync), all input
and output Datums are AVAILABLE (after their sync), and the recomputed
quickhash equals the stored one; it is FAILED iff it was already FAILED;
otherwise it is WAITING.  The task state assignments themselves never
raise. -/
theorem task_sync_classification {Ptr : Type} (e : TaskSyncEnv Ptr)
    (hin : ∀ x ∈ e.inputs, (Datum.sync x.1 x.2).raised = none)
    (hout : ∀ x ∈ e.outputs, (Datum.sync x.1 x.2).raised = none) :
    ∃ s h, Task.syncStep e = .ok (s, h) ∧
      (s = TaskState.COMPLETE ↔
        e.prev ≠ TaskState.FAILED ∧
        (∀ st ∈ e.depStates, st = TaskState.COMPLETE) ∧
        (∀ x ∈ e.inputs, (Datum.sync x.1 x.2).datum.state = DatumState.AVAILABLE) ∧
        (∀ x ∈ e.outputs, (Datum.sync x.1 x.2).datum.state = DatumState.AVAILABLE) ∧
        e.newHash = e.storedHash) ∧
      (s = TaskState.FAILED ↔ e.prev = TaskState.FAILED) ∧
      (s = TaskState.WAITING ↔
        e.prev ≠ TaskState.FAILED ∧
        ¬((∀ st ∈ e.depStates, st = TaskState.COMPLETE) ∧
          (∀ x ∈ e.inputs, (Datum.sync x.1 x.2).datum.state = DatumState.AVAILABLE) ∧
          (∀ x ∈ e.outputs, (Datum.sync x.1 x.2).datum.state = DatumState.AVAILABLE) ∧
          e.newHash = e.storedHash)) := by
  have hstep : Task.syncStep e =
      Task.classify e (e.inputs.map fun x => (Datum.sync x.1 x.2).datum)
        (e.outputs.map fun x => (Datum.sync x.1 x.2).datum) := by
    rw [Task.syncStep, syncDatums_ok hin, syncDatums_ok hout]
  by_cases hf : e.prev = TaskState.FAILED
  · refine ⟨.FAILED, e.storedHash, ?_, by simp [hf], by simp [hf], by simp [hf]⟩
    rw [hstep]
    simp [Task.classify, hf, setTaskState, Except.map]
  · by_cases hc : Task.syncComplete e = true
    · obtain ⟨p3, p1, p2⟩ := (syncComplete_iff e).mp hc
      have hcu : (Task.availAll (e.inputs.map fun x => (Datum.sync x.1 x.2).datum)
          && Task.availAll (e.outputs.map fun x => (Datum.sync x.1 x.2).datum)
          && Task.allComplete e.depStates) = true := hc
      by_cases hh : e.newHash = e.storedHash
      · refine ⟨.COMPLETE, e.storedHash, ?_,
          ⟨fun _ => ⟨hf, p3, p1, p2, hh⟩, fun _ => rfl⟩,
          ⟨(fun h => nomatch h), fun h => absurd h hf⟩,
          ⟨(fun h => nomatch h), fun h => absurd ⟨p3, p1, p2, hh⟩ h.2⟩⟩
        rw [hstep, Task.classify, if_neg hf, if_pos hcu, if_pos hh,
          setTaskState_COMPLETE hf]
        rfl
      · refine ⟨.WAITING, e.newHash, ?_,
          ⟨(fun h => nomatch h), fun h => absurd h.2.2.2.2 hh⟩,
          ⟨(fun h => nomatch h), fun h => absurd h hf⟩,
          ⟨fun _ => ⟨hf, fun hn => hh hn.2.2.2⟩, fun _ => rfl⟩⟩
        rw [hstep, Task.classify, if_neg hf, if_pos hcu, if_neg hh,
          setTaskState_WAITING]
        rfl
    · have hnc : ¬((∀ st ∈ e.depStates, st = TaskState.COMPLETE) ∧
          (∀ x ∈ e.inputs, (Datum.sync x.1 x.2).datum.state = DatumState.AVAILABLE) ∧
          (∀ x ∈ e.outputs, (Datum.sync x.1 x.2).datum.state = DatumState.AVAILABLE) ∧
          e.newHash = e.storedHash) := by
        rintro ⟨p3, p1, p2, -⟩
        exact hc ((syncComplete_iff e).mpr ⟨p3, p1, p2⟩)
      have hcu : ¬((Task.availAll (e.inputs.map fun x => (Datum.sync x.1 x.2).datum)
          && Task.availAll (e.outputs.map fun x => (Datum.sync x.1 x.2).datum)
          && Task.allComplete e.depStates) = true) := hc
      refine ⟨.WAITING, e.storedHash, ?_,
        ⟨(fun h => nomatch h),
         fun h => absurd ⟨h.2.1, h.2.2.1, h.2.2.2.1, h.2.2.2.2⟩ hnc⟩,
        ⟨(fun h => nomatch h), fun h => absurd h hf⟩,
        ⟨fun _ => ⟨hf, hnc⟩, fun _ => rfl⟩⟩
      rw [hstep, Task.classify, if_neg hf, if_neg hcu, setTaskState_WAITING]
      rfl

/-- The environment at which `task_sync_classification` is witnessed: a
WAITING task with no inputs, outputs or dependencies and an unchanged
quickhash. -/
def syncEnvW : TaskSyncEnv Nat := ⟨.WAITING, [], [], [], 0, 0⟩

/-- Witness for `task_sync_classification` at `syncEnvW`: both
no-datum-raised hypotheses hold (the dicts are empty) and the
classification applies. -/
theorem task_sync_classification_witness :
    (∀ x ∈ syncEnvW.inputs, (Datum.sync x.1 x.2).raised = none) ∧
    (∀ x ∈ syncEnvW.outputs, (Datum.sync x.1 x.2).raised = none) ∧
    (∃ s h, Task.syncStep syncEnvW = .ok (s, h) ∧
      (s = TaskState.COMPLETE ↔
        syncEnvW.prev ≠ TaskState.FAILED ∧
        (∀ st ∈ syncEnvW.depStates, st = TaskState.COMPLETE) ∧
        (∀ x ∈ syncEnvW.inputs,
          (Datum.sync x.1 x.2).datum.state = DatumState.AVAILABLE) ∧
        (∀ x ∈ syncEnvW.outputs,
          (Datum.sync x.1 x.2).datum.state = DatumState.AVAILABLE) ∧
        syncEnvW.newHash = syncEnvW.storedHash) ∧
      (s = TaskState.FAILED ↔ syncEnvW.prev = TaskState.FAILED) ∧
      (s = TaskState.WAITING ↔
        syncEnvW.prev ≠ TaskState.FAILED ∧
        ¬((∀ st ∈ syncEnvW.depStates, st = TaskState.COMPLETE) ∧
          (∀ x ∈ syncEnvW.inputs,
            (Datum.sync x.1 x.2).datum.state = DatumState.AVAILABLE) ∧
          (∀ x ∈ syncEnvW.outputs,
            (Datum.sync x.1 x.2).datum.state = DatumState.AVAILABLE) ∧
          syncEnvW.newHash = syncEnvW.storedHash))) :=
  ⟨(fun _ hx => nomatch hx), (fun _ hx => nomatch hx),
   task_sync_classification syncEnvW
     (fun _ hx => nomatch hx) (fun _ hx => nomatch hx)⟩

/-! ## `AbstractTask.run` -/

/-- What executing `self._collect_inputs()` followed by
`self._run_logic(...)` does: return normally, raise KeyboardInterrupt, or
raise some other exception (tagged with a code). -/
inductive BodyResult
  | ok
  | interrupt
  | error (code : Nat)
deriving DecidableEq, Repr

/-- The parts of a Task that `run()` touches: its state, its dependencies'
states (for `is_ready`), its output Datums with their hooks, and what the
body does when invoked. -/
structure RunTask (Ptr : Type) where
  state : TaskState
  depStates : List TaskState
  outputs : List (DatumHooks Ptr × Datum Ptr)
  body : BodyResult

/-- Result of `run()`: the task's final state, its output Datums, the
exception propagated to the caller (if any), and which cleanup hook ran. -/
structure RunResult (Ptr : Type) where
  state : TaskState
  outputs : List (Datum Ptr)
  raised : Option PyError
  interruptCleanupRan : Bool
  failCleanupRan : Bool

namespace Task

variable {Ptr : Type}

/-- `AbstractTask._verify_outputs`:
`all(out.verify_available(update=True) for out in self.outputs.values())`.
The generator short-circuits: outputs after the first failing check are
not visited.  (`verify_available` on these Datums never raises: the
AVAILABLE assignment only happens from a non-EMPTY state.) -/
def verifyOutputs : List (DatumHooks Ptr × Datum Ptr) → List (Datum Ptr) × Bool
  | [] => ([], true)
  | x :: rest =>
    let r := Datum.verifyAvailable x.1 x.2 true
    if r.result then
      let rec' := verifyOutputs rest
      (r.datum :: rec'.1, rec'.2)
    else
      (r.datum :: rest.map (·.2), false)

/-- `AbstractTask.run`: raise NotReady unless all dependencies are
COMPLETE; transition to RUNNING; run the body.  On KeyboardInterrupt call
`self.interrupt()` (transition to WAITING, run `_interrupt_cleanup`) —
and return normally.  On any other exception call `self.fail()`
(transition to FAILED, run `_fail_cleanup`) and re-raise.  Otherwise
verify the outputs; if one is missing raise MissingOutput (caught by the
same failure path); else transition to COMPLETE. -/
def run (t : RunTask Ptr) : RunResult Ptr :=
  if ¬ allComplete t.depStates then
    ⟨t.state, t.outputs.map (·.2), some .notReady, false, false⟩
  else
    match setTaskState t.state .RUNNING with
    | .error e => ⟨t.state, t.outputs.map (·.2), some e, false, false⟩
    | .ok s1 =>
      match t.body with
      | .interrupt =>
        -- `except KeyboardInterrupt: self.interrupt()` (no re-raise)
        match setTaskState s1 .WAITING with
        | .error e => ⟨s1, t.outputs.map (·.2), some e, false, false⟩
        | .ok s2 => ⟨s2, t.outputs.map (·.2), none, true, false⟩
      | .error c =>
        -- `except Exception as e: self.fail(); raise e`
        match setTaskState s1 .FAILED with
        | .error e => ⟨s1, t.outputs.map (·.2), some e, false, false⟩
        | .ok s2 => ⟨s2, t.outputs.map (·.2), some (.userError c), false, true⟩
      | .ok =>
        let vo := verifyOutputs t.outputs
        if vo.2 then
          match setTaskState s1 .COMPLETE with
          | .error e => ⟨s1, vo.1, some e, false, false⟩
          | .ok s2 => ⟨s2, vo.1, none, false, false⟩
        else
          -- the MissingOutput RuntimeError is raised inside the `try`,
          -- so it takes the same `except Exception` path
          match setTaskState s1 .FAILED with
          | .error e => ⟨s1, vo.1, some e, false, false⟩
          | .ok s2 => ⟨s2, vo.1, some .missingOutput, false, true⟩

end Task

/-- `verifyOutputs` returns true iff every single output's
`verify_available(update=True)` returns true (the short-circuit does not
change the boolean, because each check only reads its own Datum). -/
theorem verifyOutputs_snd {Ptr : Type} (l : List (DatumHooks Ptr × Datum Ptr)) :
    (Task.verifyOutputs l).2 = true ↔
      ∀ x ∈ l, (Datum.verifyAvailable x.1 x.2 true).result = true := by
  induction l with
  | nil => simp [Task.verifyOutputs]
  | cons x rest ih =>
    by_cases hx : (Datum.verifyAvailable x.1 x.2 true).result = true
    · simp only [Task.verifyOutputs, hx, if_true, List.mem_cons]
      constructor
      · intro h y hy
        rcases hy with rfl | hy
        · exact hx
        · exact (ih.mp h) y hy
      · intro h
        exact ih.mpr fun y hy => h y (.inr hy)
    · simp only [Task.verifyOutputs, hx, if_false, List.mem_cons]
      constructor
      · intro h
        cases h
      · intro h
        exact absurd (h x (.inl rfl)) hx

/-- C4: on a ready WAITING task, if the body raises a non-Interrupted
error, or the body returns but some declared output fails to reach
AVAILABLE, the task ends FAILED, `_fail_cleanup` runs, and the error
(MissingOutput in the missing-output case, the original error otherwise)
is re-raised to the caller; if the body succeeds and every output reaches
AVAILABLE, the task ends COMPLETE. -/
theorem task_run_failure_and_success {Ptr : Type} (t : RunTask Ptr)
    (hready : ∀ s ∈ t.depStates, s = TaskState.COMPLETE)
    (hw : t.state = TaskState.WAITING) :
    (∀ c, t.body = .error c →
      (Task.run t).state = TaskState.FAILED ∧
      (Task.run t).failCleanupRan = true ∧
      (Task.run t).raised = some (.userError c)) ∧
    (t.body = .ok →
      ¬(∀ x ∈ t.outputs, (Datum.verifyAvailable x.1 x.2 true).result = true) →
      (Task.run t).state = TaskState.FAILED ∧
      (Task.run t).failCleanupRan = true ∧
      (Task.run t).raised = some .missingOutput) ∧
    (t.body = .ok →
      (∀ x ∈ t.outputs, (Datum.verifyAvailable x.1 x.2 true).result = true) →
      (Task.run t).state = TaskState.COMPLETE ∧
      (Task.run t).raised = none) := by
  have hrdy : Task.allComplete t.depStates = true := (allComplete_iff _).mpr hready
  refine ⟨?_, ?_, ?_⟩
  · intro c hb
    rw [Task.run, if_neg (by simp [hrdy]), hw]
    rw [show setTaskState TaskState.WAITING .RUNNING = .ok .RUNNING from rfl]
    rw [hb]
    exact ⟨rfl, rfl, rfl⟩
  · intro hb hout
    have hv : (Task.verifyOutputs t.outputs).2 = false := by
      rcases h : (Task.verifyOutputs t.outputs).2 with _ | _
      · rfl
      · exact absurd ((verifyOutputs_snd t.outputs).mp h) hout
    rw [Task.run, if_neg (by simp [hrdy]), hw]
    rw [show setTaskState TaskState.WAITING .RUNNING = .ok .RUNNING from rfl]
    rw [hb]
    simp only [hv, if_false, Bool.false_eq_true]
    exact ⟨rfl, rfl, rfl⟩
  · intro hb hout
    have hv : (Task.verifyOutputs t.outputs).2 = true :=
      (verifyOutputs_snd t.outputs).mpr hout
    rw [Task.run, if_neg (by simp [hrdy]), hw]
    rw [show setTaskState TaskState.WAITING .RUNNING = .ok .RUNNING from rfl]
    rw [hb]
    simp only [hv, if_true]
    exact ⟨rfl, rfl⟩

/-- Witness for `task_run_failure_and_success`: a ready WAITING task with
one COMPLETE dependency whose body raises exception 42 ends FAILED, runs
`_fail_cleanup`, and re-raises the exception. -/
theorem task_run_failure_and_success_witness :
    (Task.run (⟨.WAITING, [.COMPLETE], [], .error 42⟩ : RunTask Nat)).state
        = TaskState.FAILED ∧
    (Task.run (⟨.WAITING, [.COMPLETE], [], .error 42⟩ : RunTask Nat)).failCleanupRan
        = true ∧
    (Task.run (⟨.WAITING, [.COMPLETE], [], .error 42⟩ : RunTask Nat)).raised
        = some (.userError 42) :=
  (task_run_failure_and_success (⟨.WAITING, [.COMPLETE], [], .error 42⟩ : RunTask Nat)
    (by intro s hs; simpa using hs) rfl).1 42 rfl

/-- C5 counterexample: a ready WAITING task whose body raises
KeyboardInterrupt does transition RUNNING→WAITING and run
`_interrupt_cleanup`, but `run()` swallows the interruption and returns
normally — nothing propagates to the caller (the repository's own test
`test_base_task_interrupt` calls `ti.run()` with no exception expected). -/
theorem task_run_interrupt_counterexample :
    (Task.run (⟨.WAITING, [], [], .interrupt⟩ : RunTask Nat)).state
        = TaskState.WAITING ∧
    (Task.run (⟨.WAITING, [], [], .interrupt⟩ : RunTask Nat)).interruptCleanupRan
        = true ∧
    (Task.run (⟨.WAITING, [], [], .interrupt⟩ : RunTask Nat)).raised = none ∧
    (Task.run (⟨.WAITING, [], [], .interrupt⟩ : RunTask Nat)).raised
        ≠ some PyError.keyboardInterrupt := by
  refine ⟨rfl, rfl, rfl, by decide⟩

/-- C5 (amended): on a ready WAITING task whose body raises Interrupted
(KeyboardInterrupt), the task transitions RUNNING→WAITING and
`_interrupt_cleanup` runs, but the interruption does not propagate:
`run()` returns normally with no exception. -/
theorem task_run_interrupt_swallowed {Ptr : Type} (t : RunTask Ptr)
    (hready : ∀ s ∈ t.depStates, s = TaskState.COMPLETE)
    (hw : t.state = TaskState.WAITING)
    (hb : t.body = .interrupt) :
    (Task.run t).state = TaskState.WAITING ∧
    (Task.run t).interruptCleanupRan = true ∧
    (Task.run t).raised = none := by
  have hrdy : Task.allComplete t.depStates = true := (allComplete_iff _).mpr hready
  rw [Task.run, if_neg (by simp [hrdy]), hw]
  rw [show setTaskState TaskState.WAITING .RUNNING = .ok .RUNNING from rfl]
  rw [hb]
  exact ⟨rfl, rfl, rfl⟩

/-- Witness for `task_run_interrupt_swallowed` at a concrete input. -/
theorem task_run_interrupt_swallowed_witness :
    (Task.run (⟨.WAITING, [.COMPLETE, .COMPLETE], [], .interrupt⟩ : RunTask Nat)).state
        = TaskState.WAITING ∧
    (Task.run (⟨.WAITING, [.COMPLETE, .COMPLETE], [], .interrupt⟩ : RunTask Nat)).interruptCleanupRan
        = true ∧
    (Task.run (⟨.WAITING, [.COMPLETE, .COMPLETE], [], .interrupt⟩ : RunTask Nat)).raised
        = none :=
  task_run_interrupt_swallowed
    (⟨.WAITING, [.COMPLETE, .COMPLETE], [], .interrupt⟩ : RunTask Nat)
    (by intro s hs; simpa using (List.mem_cons.mp hs).elim id (by simp))
    rfl rfl

/-! ## DatumList (`abstract/list_datum.py`) -/

/-- The mutable attributes of a `DatumList`: its own `state` and
`quickhash`, and `datum_list`, which is `None` until the list is first
populated.  (`pointer` is a derived property, not stored.) -/
structure ListDatum (Ptr : Type) where
  state : DatumState
  datumList : Option (List (Datum Ptr))
  quickhash : Option Int

namespace ListDatum

variable {Ptr : Type}

/-- `DatumList._quickhash`:
`hash(tuple(d._quickhash() for d in self.datum_list))`, with Python's
`hash` on int tuples modelled by an arbitrary function `th`. -/
def listQuickhash (th : List Int → Int) (hk : DatumHooks Ptr)
    (ds : List (Datum Ptr)) : Int :=
  th (ds.map fun d => hk.qh d.pointer)

/-- `DatumList.verify_available(update)`: call `verify_available(update)`
on every member (`available &= ...` does not short-circuit), then apply
the normal Datum logic to the list itself: if the list's state is not
EMPTY and all members reported available, optionally transition to
AVAILABLE and recompute the list quickhash, and return True; else return
False.  Iterating `self.datum_list` raises TypeError when it is still
`None` (never populated). -/
def verifyAvailable (th : List Int → Int) (hk : DatumHooks Ptr)
    (l : ListDatum Ptr) (update : Bool) :
    Except PyError (ListDatum Ptr × Bool) :=
  match l.datumList with
  | none => .error .typeError
  | some ds =>
    let rs := ds.map fun d => Datum.verifyAvailable hk d update
    let available := rs.all (·.result)
    let ds' := rs.map (·.datum)
    if l.state ≠ DatumState.EMPTY ∧ available = true then
      if update then
        match setDatumState l.state .AVAILABLE with
        | .error e => .error e
        | .ok s =>
          .ok (⟨s, some ds', some (listQuickhash th hk ds')⟩, true)
      else .ok (⟨l.state, some ds', l.quickhash⟩, true)
    else .ok (⟨l.state, some ds', l.quickhash⟩, false)

end ListDatum

/-- C9 counterexample: a freshly constructed `DatumList` (state EMPTY,
`datum_list = None`) raises TypeError from `verify_available` instead of
returning false, because the member loop iterates over `None`. -/
theorem datumlist_verify_available_empty_counterexample :
    (⟨DatumState.EMPTY, none, none⟩ : ListDatum Nat).state = DatumState.EMPTY ∧
    ListDatum.verifyAvailable (fun _ => 0) (memoryLikeHooks 0)
        (⟨DatumState.EMPTY, none, none⟩ : ListDatum Nat) true
      = .error PyError.typeError := by
  exact ⟨rfl, rfl⟩

/-- Assigning AVAILABLE is legal from every datum state except EMPTY. -/
theorem setDatumState_AVAILABLE {s : DatumState} (h : s ≠ DatumState.EMPTY) :
    setDatumState s .AVAILABLE = .ok .AVAILABLE := by
  cases s <;> simp_all [setDatumState, datumTransitions]

/-- The member loop's conjunction equals the pointwise `all` over the
original members. -/
theorem verifyAvailable_all_map {Ptr : Type} (hk : DatumHooks Ptr) (u : Bool)
    (ds : List (Datum Ptr)) :
    ((ds.map fun d => Datum.verifyAvailable hk d u).all fun r => r.result)
      = ds.all fun d => (Datum.verifyAvailable hk d u).result := by
  induction ds with
  | nil => rfl
  | cons x tl ih => simp only [List.map_cons, List.all_cons, ih]

/-- The updated member list equals the pointwise map over the original
members. -/
theorem verifyAvailable_map_datum {Ptr : Type} (hk : DatumHooks Ptr) (u : Bool)
    (ds : List (Datum Ptr)) :
    ((ds.map fun d => Datum.verifyAvailable hk d u).map fun r => r.datum)
      = ds.map fun d => (Datum.verifyAvailable hk d u).datum := by
  induction ds with
  | nil => rfl
  | cons x tl ih => simp only [List.map_cons, ih]

/-- C9 (amended): `verify_available(update)` on a plain Datum returns
false when EMPTY and otherwise the value of the variant's existence
predicate, transitioning to AVAILABLE and recomputing the quickhash when
the predicate holds and `update` is true; a `DatumList` whose member list
has been initialized behaves the same way elementwise (its predicate
value is the conjunction of the members' `verify_available` results),
but a never-populated `DatumList` (`datum_list = None`) raises TypeError
instead of returning false. -/
theorem verify_available_characterization {Ptr : Type} (hk : DatumHooks Ptr)
    (d : Datum Ptr) (u : Bool) (th : List Int → Int) (s : DatumState)
    (ds : List (Datum Ptr)) (q : Option Int) :
    (Datum.verifyAvailable hk d u).raised = none ∧
    (Datum.verifyAvailable hk d u).result =
      (decide (d.state ≠ DatumState.EMPTY) && hk.avail d.pointer) ∧
    (Datum.verifyAvailable hk d u).datum =
      (if d.state ≠ DatumState.EMPTY ∧ hk.avail d.pointer = true ∧ u = true then
        { d with state := DatumState.AVAILABLE,
                 quickhash := some (hk.qh d.pointer) }
       else d) ∧
    ListDatum.verifyAvailable th hk (⟨s, none, q⟩ : ListDatum Ptr) u
      = .error PyError.typeError ∧
    ListDatum.verifyAvailable th hk (⟨s, some ds, q⟩ : ListDatum Ptr) u
      = .ok
        (if s ≠ DatumState.EMPTY ∧
            (ds.all fun x => (Datum.verifyAvailable hk x u).result) = true then
          (if u then
            (⟨DatumState.AVAILABLE,
              some (ds.map fun x => (Datum.verifyAvailable hk x u).datum),
              some (ListDatum.listQuickhash th hk
                (ds.map fun x => (Datum.verifyAvailable hk x u).datum))⟩ :
              ListDatum Ptr)
           else ⟨s, some (ds.map fun x => (Datum.verifyAvailable hk x u).datum), q⟩)
         else ⟨s, some (ds.map fun x => (Datum.verifyAvailable hk x u).datum), q⟩,
         decide (s ≠ DatumState.EMPTY) &&
           (ds.all fun x => (Datum.verifyAvailable hk x u).result)) := by
  refine ⟨?_, ?_, ?_, rfl, ?_⟩
  · by_cases he : d.state ≠ DatumState.EMPTY ∧ hk.avail d.pointer = true
    · obtain ⟨he1, he2⟩ := he
      rcases u with _ | _
      · simp [Datum.verifyAvailable, he1, he2]
      · simp only [Datum.verifyAvailable, if_pos (And.intro he1 he2), if_true]
        rw [Datum.trySetState, setDatumState_AVAILABLE he1]
    · simp only [Datum.verifyAvailable, if_neg he]
  · by_cases he : d.state ≠ DatumState.EMPTY ∧ hk.avail d.pointer = true
    · obtain ⟨he1, he2⟩ := he
      have hd : (decide (d.state ≠ DatumState.EMPTY) && hk.avail d.pointer) = true := by
        simp [he1, he2]
      rw [hd]
      rcases u with _ | _
      · simp [Datum.verifyAvailable, he1, he2]
      · simp only [Datum.verifyAvailable, if_pos (And.intro he1 he2), if_true]
        rw [Datum.trySetState, setDatumState_AVAILABLE he1]
    · have hd : (decide (d.state ≠ DatumState.EMPTY) && hk.avail d.pointer) = false := by
        rcases Decidable.not_and_iff_or_not.mp he with h | h
        · simp [decide_eq_false h]
        · simp [Bool.eq_false_iff.mpr h]
      rw [hd]
      simp only [Datum.verifyAvailable, if_neg he]
  · by_cases he : d.state ≠ DatumState.EMPTY ∧ hk.avail d.pointer = true
    · obtain ⟨he1, he2⟩ := he
      rcases u with _ | _
      · simp [Datum.verifyAvailable, he1, he2]
      · simp only [Datum.verifyAvailable, if_pos (And.intro he1 he2), if_true]
        rw [Datum.trySetState, setDatumState_AVAILABLE he1]
        simp [he1, he2]
    · have he' : ¬(d.state ≠ DatumState.EMPTY ∧ hk.avail d.pointer = true ∧ u = true) := by
        rintro ⟨h1, h2, -⟩
        exact he ⟨h1, h2⟩
      simp only [Datum.verifyAvailable, if_neg he, if_neg he']
  · simp only [ListDatum.verifyAvailable, verifyAvailable_all_map,
      verifyAvailable_map_datum]
    by_cases he : s ≠ DatumState.EMPTY ∧
        (ds.all fun x => (Datum.verifyAvailable hk x u).result) = true
    · rw [if_pos he, if_pos he]
      have hb : (decide (s ≠ DatumState.EMPTY) &&
          (ds.all fun x => (Datum.verifyAvailable hk x u).result)) = true := by
        simp [he.1, he.2]
      rcases u with _ | _
      · rw [hb]
        rfl
      · rw [setDatumState_AVAILABLE he.1, hb]
        rfl
    · rw [if_neg he, if_neg he]
      have hd : (decide (s ≠ DatumState.EMPTY) &&
          (ds.all fun x => (Datum.verifyAvailable hk x u).result)) = false := by
        rcases Decidable.not_and_iff_or_not.mp he with h | h
        · simp [decide_eq_false h]
        · simp [Bool.eq_false_iff.mpr h]
      rw [hd]

/-! ## Task construction: `collect_dependencies` (`abstract/helpers.py`) -/

/-- What `collect_dependencies` reads off each input Datum: its `.parent`
attribute — the producing Task (identified here by a numeric id), or
`None`. -/
structure InputDatum where
  parent : Option Nat

/-- `collect_dependencies(input_dict, dependency_ls)` from
`abstract/helpers.py`:
`parents = [inp.parent for inp in input_dict.values()]` followed by
`set(dependency_ls) | set(p for p in parents if p is not None)` (the
returned `list(deps)` is this set in unspecified order, so we model the
set itself). -/
def collect_dependencies (input_dict : List InputDatum)
    (dependency_ls : List Nat) : Finset Nat :=
  let parents := input_dict.map (·.parent)
  dependency_ls.toFinset ∪ (parents.filterMap id).toFinset

/-- The attributes of `AbstractTask.__init__` relevant to the dependency
computation: the inputs dict and the explicit dependency list. -/
structure TaskInit where
  inputs : List InputDatum
  dependencies : List Nat

/-- `AbstractTask.__init__`:
`self.dependencies = helpers.collect_dependencies(self.inputs,
self.dependencies)`. -/
def initDependencies (t : TaskInit) : Finset Nat :=
  collect_dependencies t.inputs t.dependencies

/-- C6: the constructed task's dependencies are exactly the union of the
explicit dependencies and the producing (parent) Tasks of all input
Datums, null parents omitted. -/
theorem init_dependencies_union (t : TaskInit) (x : Nat) :
    x ∈ initDependencies t ↔
      x ∈ t.dependencies ∨ ∃ d ∈ t.inputs, d.parent = some x := by
  simp only [initDependencies, collect_dependencies, Finset.mem_union,
    List.mem_toFinset, List.mem_filterMap, id_eq, List.mem_map]
  constructor
  · rintro (h | ⟨p, ⟨d, hd, rfl⟩, hp⟩)
    · exact .inl h
    · exact .inr ⟨d, hd, hp⟩
  · rintro (h | ⟨d, hd, hp⟩)
    · exact .inl h
    · exact .inr ⟨d.parent, ⟨d, hd, rfl⟩, hp⟩

/-! ## Workflow-state initialization (`abstract/workflow_manager.py`) -/

/-- What one task contributes to `_rec_initialize_state`: its id, the ids
of its dependencies, its current state flag, and the data its
(spec-modelled) `verify_complete()` consults: its dependencies' states,
its stored and recomputed quickhash, and its input/output Datums. -/
structure VTask (Ptr : Type) where
  id : Nat
  deps : List Nat
  depStates : List TaskState
  state : TaskState
  storedHash : Int
  newHash : Int
  inputs : List (DatumHooks Ptr × Datum Ptr)
  outputs : List (DatumHooks Ptr × Datum Ptr)

/-- Modelled from the spec: `AbstractTask.verify_complete()` is called by
`AbstractManager._rec_initialize_state` but is defined nowhere in the
sources.  Per the spec, a task is verified COMPLETE iff its dependencies
are COMPLETE, its own quickhash is unchanged, every input fingerprint is
unchanged, and every output Datum is AVAILABLE. -/
def verifyComplete {Ptr : Type} (t : VTask Ptr) : Bool :=
  Task.allComplete t.depStates
    && (t.newHash == t.storedHash)
    && (t.inputs.all fun x => some (x.1.qh x.2.pointer) == x.2.quickhash)
    && (t.outputs.all fun x => x.2.state == DatumState.AVAILABLE)

/-- The scheduling collections of `AbstractManager` that
`_rec_initialize_state` updates (`running` stays empty during
initialization).  `waiting`, `complete` and `failed` are Python sets;
`ready` is a list. -/
structure MgrState where
  waiting : Finset Nat
  ready : List Nat
  complete : Finset Nat
  failed : Finset Nat

/-- The per-task classification step of
`AbstractManager._rec_initialize_state`, run after the recursive calls on
the task's dependencies (which execute this same step on each of them):
if any dependency is in `waiting`, `failed` or `ready`, set the task
WAITING and add it to `waiting`; else if the task's state flag is FAILED,
add it to `failed`; else, with `verify_tasks`, add it to `complete` when
`verify_complete()` holds and otherwise set it WAITING and append it to
`ready`; without `verify_tasks`, trust the state flag the same way.
Returns the updated collections and the task's state after the step. -/
def recInitStep {Ptr : Type} (m : MgrState) (t : VTask Ptr)
    (verifyTasks : Bool) : MgrState × TaskState :=
  if t.deps.any fun d =>
      decide (d ∈ m.waiting) || decide (d ∈ m.failed) || decide (d ∈ m.ready) then
    ({ m with waiting := insert t.id m.waiting }, .WAITING)
  else if t.state = TaskState.FAILED then
    ({ m with failed := insert t.id m.failed }, .FAILED)
  else if verifyTasks then
    if verifyComplete t then
      ({ m with complete := insert t.id m.complete }, t.state)
    else
      ({ m with ready := m.ready ++ [t.id] }, .WAITING)
  else
    if t.state = TaskState.COMPLETE then
      ({ m with complete := insert t.id m.complete }, t.state)
    else
      ({ m with ready := m.ready ++ [t.id] }, .WAITING)

/-- C7 (spec-modelled): during `initialize_workflow_state` with
`verify_tasks=True`, a task all of whose dependencies have been
classified COMPLETE (and that is not already FAILED) is classified
COMPLETE iff `verify_complete()` holds; otherwise it is set to WAITING
and appended to the READY collection.  The disjointness hypothesis is the
manager's partition invariant for already-processed tasks. -/
theorem init_state_verified_classification {Ptr : Type} (m : MgrState)
    (t : VTask Ptr)
    (hdeps : ∀ d ∈ t.deps, d ∈ m.complete)
    (hdisj : ∀ d, d ∈ m.complete → d ∉ m.waiting ∧ d ∉ m.failed ∧ d ∉ m.ready)
    (hnf : t.state ≠ TaskState.FAILED)
    (hfresh : t.id ∉ m.complete) :
    (t.id ∈ (recInitStep m t true).1.complete ↔ verifyComplete t = true) ∧
    (verifyComplete t = false →
      (recInitStep m t true).2 = TaskState.WAITING ∧
      t.id ∈ (recInitStep m t true).1.ready) := by
  have hguard : (t.deps.any fun d =>
      decide (d ∈ m.waiting) || decide (d ∈ m.failed) || decide (d ∈ m.ready)) = false := by
    rw [List.any_eq_false]
    intro d hd
    obtain ⟨h1, h2, h3⟩ := hdisj d (hdeps d hd)
    simp [h1, h2, h3]
  have hng : ¬((t.deps.any fun d =>
      decide (d ∈ m.waiting) || decide (d ∈ m.failed) || decide (d ∈ m.ready)) = true) := by
    simp [hguard]
  constructor
  · by_cases hv : verifyComplete t = true
    · rw [recInitStep, if_neg hng, if_neg hnf, if_pos rfl, if_pos hv]
      exact ⟨fun _ => hv, fun _ => Finset.mem_insert_self _ _⟩
    · rw [recInitStep, if_neg hng, if_neg hnf, if_pos rfl, if_neg hv]
      exact ⟨fun hmem => absurd hmem hfresh, fun hvv => absurd hvv hv⟩
  · intro hv
    have hv' : ¬(verifyComplete t = true) := by simp [hv]
    rw [recInitStep, if_neg hng, if_neg hnf, if_pos rfl, if_neg hv']
    exact ⟨rfl, by simp⟩

/-- Witness for `init_state_verified_classification`: a dependency-free
WAITING task with matching quickhash and no inputs/outputs is verified
COMPLETE and classified into the COMPLETE collection. -/
theorem init_state_verified_classification_witness :
    (7 ∈ (recInitStep (⟨∅, [], ∅, ∅⟩ : MgrState)
        (⟨7, [], [], .WAITING, 3, 3, [], []⟩ : VTask Nat) true).1.complete) ∧
    verifyComplete (⟨7, [], [], .WAITING, 3, 3, [], []⟩ : VTask Nat) = true := by
  have h := init_state_verified_classification (⟨∅, [], ∅, ∅⟩ : MgrState)
    (⟨7, [], [], .WAITING, 3, 3, [], []⟩ : VTask Nat)
    (by intro d hd; cases hd)
    (by intro d hd; simp at hd)
    (by decide)
    (by simp)
  exact ⟨h.1.mpr rfl, rfl⟩

/-! ## Greedy resource-constrained selection
(`core/workflow_manager.py` and `abstract/helpers.py`) -/

/-- A resource dictionary: association list from resource name to amount
(Python dicts have unique keys; lookups take the first match). -/
abbrev Res := List (String × Int)

/-- `resources_available(res, query)` from `abstract/helpers.py`: for
every `(qk, qv)` in the demand, if `qk` is a key of `res` and
`res[qk] < qv`, the answer is False; a key missing from `res` imposes no
constraint (infinite supply). -/
def resources_available (res query : Res) : Bool :=
  query.all fun kv =>
    match res.lookup kv.1 with
    | some r => decide (kv.2 ≤ r)
    | none => true

/-- `decrement_resources(res, decrement)` from `abstract/helpers.py`:
`res[dk] -= dv` for every `(dk, dv)` of the decrement whose key is
present in `res` (keys absent from the decrement demand zero). -/
def decrement_resources (res dec : Res) : Res :=
  res.map fun kv =>
    match dec.lookup kv.1 with
    | some v => (kv.1, kv.2 - v)
    | none => kv

/-- What `_choose_tasks` reads off a ready task: an identifier and its
`resources` demand dict. -/
structure STask where
  id : Nat
  resources : Res

/-- `WorkflowManager._choose_tasks(ready_tasks)` from
`core/workflow_manager.py`: iterate the READY list in order over a copy
of the manager's resources, admitting each task iff
`resources_available` holds and deducting its demand on admission. -/
def chooseTasks (resources : Res) : List STask → List STask
  | [] => []
  | t :: rest =>
    if resources_available resources t.resources then
      t :: chooseTasks (decrement_resources resources t.resources) rest
    else
      chooseTasks resources rest

/-- From the claim's words: a task's demand for resource `k`, with a key
missing from the demand meaning zero demand. -/
def demandOf (t : STask) (k : String) : Int :=
  (t.resources.lookup k).getD 0

/-- From the claim's words: the remaining budget for resource `k` after
admitting `admitted`, i.e. the initial budget entry minus the admitted
tasks' demands; `none` is a key missing from the budget, meaning
infinite supply. -/
def remainingBudget (init : Res) (admitted : List STask) (k : String) :
    Option Int :=
  (init.lookup k).map fun r => r - (admitted.map fun t => demandOf t k).sum

/-- From the claim's words: a task is admitted iff each resource it
demands is at most the corresponding remaining-budget entry (no
constraint from a key missing from the budget). -/
def fitsRemaining (init : Res) (admitted : List STask) (t : STask) : Bool :=
  t.resources.all fun kv =>
    match remainingBudget init admitted kv.1 with
    | some r => decide (kv.2 ≤ r)
    | none => true

/-- From the claim's words: greedy selection — iterate the READY list in
order (tasks supply no priorities, so priority order with ties broken by
insertion order degenerates to insertion order), admitting a task iff it
fits the remaining budget and deducting its demand on admission. -/
def chooseTasksSpecGo (init : Res) (admitted : List STask) :
    List STask → List STask
  | [] => []
  | t :: rest =>
    if fitsRemaining init admitted t then
      t :: chooseTasksSpecGo init (admitted ++ [t]) rest
    else
      chooseTasksSpecGo init admitted rest

/-- The claim's selection function, starting from an empty admitted
list. -/
def chooseTasksSpec (init : Res) (ready : List STask) : List STask :=
  chooseTasksSpecGo init [] ready

/-- Looking up a key after `decrement_resources` subtracts exactly the
decrement's demand for that key (zero when the key is absent from the
decrement). -/
theorem lookup_decrement (res dec : Res) (k : String) :
    (decrement_resources res dec).lookup k
      = (res.lookup k).map fun r => r - (dec.lookup k).getD 0 := by
  induction res with
  | nil => rfl
  | cons kv tl ih =>
    obtain ⟨a, b⟩ := kv
    by_cases hk : k = a
    · subst hk
      rcases hdec : dec.lookup k with _ | v
      · simp [decrement_resources, List.lookup, hdec]
      · simp [decrement_resources, List.lookup, hdec]
    · have hba : (k == a) = false := by
        simp [hk]
      rcases hdec : dec.lookup a with _ | v
      · simp only [decrement_resources, List.map_cons, hdec, List.lookup, hba]
        exact ih
      · simp only [decrement_resources, List.map_cons, hdec, List.lookup, hba]
        exact ih

/-- Appending one admitted task subtracts its demand from the remaining
budget. -/
theorem remainingBudget_append (init : Res) (admitted : List STask)
    (t : STask) (k : String) :
    remainingBudget init (admitted ++ [t]) k
      = (remainingBudget init admitted k).map fun r => r - demandOf t k := by
  rcases h : init.lookup k with _ | r
  · simp [remainingBudget, h]
  · simp only [remainingBudget, h, Option.map_some', List.map_append,
      List.map_cons, List.map_nil, List.sum_append, List.sum_cons,
      List.sum_nil, add_zero]
    congr 1
    ring

/-- The greedy fold and the claim's greedy selection coincide whenever
the threaded budget equals the remaining budget of the admitted list. -/
theorem chooseTasks_go_eq (init : Res) (ready : List STask) :
    ∀ (budget : Res) (admitted : List STask),
      (∀ k, budget.lookup k = remainingBudget init admitted k) →
      chooseTasks budget ready = chooseTasksSpecGo init admitted ready := by
  induction ready with
  | nil => intro budget admitted _; rfl
  | cons t rest ih =>
    intro budget admitted hinv
    have hfit : resources_available budget t.resources
        = fitsRemaining init admitted t := by
      rw [resources_available, fitsRemaining]
      have : (fun kv : String × Int =>
          match budget.lookup kv.1 with
          | some r => decide (kv.2 ≤ r)
          | none => true)
          = fun kv : String × Int =>
          match remainingBudget init admitted kv.1 with
          | some r => decide (kv.2 ≤ r)
          | none => true := by
        funext kv
        rw [hinv kv.1]
      rw [this]
    by_cases hf : fitsRemaining init admitted t = true
    · rw [chooseTasks, chooseTasksSpecGo, hfit, if_pos hf, if_pos hf]
      congr 1
      apply ih
      intro k
      rw [lookup_decrement, hinv k, remainingBudget_append]
      rfl
    · rw [chooseTasks, chooseTasksSpecGo, hfit, if_neg hf, if_neg hf]
      exact ih budget admitted hinv

/-- C10: the scheduler's selection (`_choose_tasks`) is exactly the
claim's greedy computation: iterate READY in order (tasks supply no
priorities, so task-supplied priority order with ties broken by insertion
order is insertion order), admit a task iff each resource it demands is
at most the corresponding remaining-budget entry, deduct its demand on
admission, with a key missing from the budget meaning infinite supply
and a key missing from the demand meaning zero demand. -/
theorem choose_tasks_greedy_spec (init : Res) (ready : List STask) :
    chooseTasks init ready = chooseTasksSpec init ready := by
  apply chooseTasks_go_eq
  intro k
  rcases h : init.lookup k with _ | r
  · simp [remainingBudget, h]
  · simp [remainingBudget, h]

end Dagger
